import Mathlib

/-!
Shallow embedding of the `golb` load-balancer repository
(`jumayevgadam/load-balancer-assignment`), covering the backend handle
(`BackendImpl`), the basic round-robin balancer (`BasicBalancer`), the
health-aware balancer (`IntermediateBalancer`) and the load-aware balancer
(`AdvancedBalancer`, the variant with the `healthChecker` goroutine).

Modelling conventions:
* Time is a `Nat` in nanoseconds (Go `time.Duration` units); `time.Since t`
  at instant `now` is `now - t` (Nat subtraction, a monotone clock assumed).
* The `uint32` round-robin counter is a `Nat` reduced mod `2^32` exactly
  where Go's `atomic.AddUint32` and uint32 subtraction wrap.
* `failureCount` (int32) and `activeRequests` (int64) never approach their
  machine bounds in any behaviour the claims mention, so they are embedded
  as `Nat` / `Int` without wrap-around.
* The network is an oracle: an `Outcome` says whether building the HTTP
  request failed, the transport erred (including cancellation), or a status
  code came back.  All state updates are translated line by line from Go.
* Heap pointers are embedded as indices into the balancer's backend list,
  and Go's `container/heap` algorithms (`up`, `down`, `Push`, `Pop`) are
  reproduced verbatim over a `List Nat` of such indices.
-/

/-- Modulus of Go's `uint32` arithmetic. -/
def u32 : Nat := 2 ^ 32

/-- maxFailureCount = 3 (part_000 line 16). -/
def maxFailureCount : Nat := 3

/-- Recovery cool-down used in `BackendImpl.IsHealthy`: `2*time.Second` in ns. -/
def coolDown : Nat := 2000000000

/-- healthCheckerTime = 10 * time.Second, in ns. -/
def healthCheckerTime : Nat := 10000000000

/-- State of one `BackendImpl` (part_000 lines 28-36). -/
structure BackendState where
  addr : String
  failureCount : Nat
  lastFailure : Nat
  healthy : Bool
  activeRequests : Int
  deriving Repr, DecidableEq

/-- `NewBackend` (part_000 lines 42-50): starts healthy with zero counters. -/
def newBackend (a : String) : BackendState :=
  { addr := a, failureCount := 0, lastFailure := 0, healthy := true, activeRequests := 0 }

/-- `MarkUnhealthy` (part_000 lines 115-117). -/
def markUnhealthy (st : BackendState) : BackendState :=
  { st with healthy := false }

/-- `GetLoad` (part_000 lines 120-122). -/
def getLoad (st : BackendState) : Int :=
  st.activeRequests

/-- `IsHealthy` (part_000 lines 94-112): true immediately when the healthy
flag is set; otherwise recovers (flag set, failure counter reset) when more
than `coolDown` has elapsed since the last failure; otherwise false.
Returns the answer together with the possibly-updated state. -/
def isHealthy (st : BackendState) (now : Nat) : Bool × BackendState :=
  if st.healthy then (true, st)
  else if coolDown < now - st.lastFailure then
    (true, { st with healthy := true, failureCount := 0 })
  else (false, st)

/-- Result of `b.client.Do` as seen by `BackendImpl.Invoke`: a transport
error, a cancellation (also surfaced as an error by Go's http client), or a
response with a status code. -/
inductive DoResult where
  | doErr
  | canceled
  | status (code : Nat)
  deriving Repr, DecidableEq

/-- Outcome oracle for one invocation: either `http.NewRequestWithContext`
failed, or the request was dispatched and `client.Do` produced `r`. -/
inductive Outcome where
  | createFail
  | dispatched (r : DoResult)
  deriving Repr, DecidableEq

/-- Errors the package can produce.  `backendServersEmpty` and
`noAvailableBackends` are the two sentinel values of src/errors.go; the rest
are the `fmt.Errorf` values constructed in the invoke paths, with
`advancedWrapped` for the `[advanced.backend.Invoke]: failed request: %w`
wrapper. -/
inductive GoError where
  | backendServersEmpty
  | noAvailableBackends
  | reqCreateFailed (addr : String)
  | backendFailed (addr : String)
  | backendStatus (addr : String) (code : Nat)
  | advancedWrapped (e : GoError)
  deriving Repr, DecidableEq

/-- True when a wrapped error chain contains `ErrNoAvailableBackends`. -/
def GoError.mentionsNoAvailableBackends : GoError → Bool
  | .noAvailableBackends => true
  | .advancedWrapped e => e.mentionsNoAvailableBackends
  | _ => false

/-- Failure test of `BackendImpl.Invoke` (part_000 line 69):
`err != nil || resp.StatusCode < http.StatusOK || resp.StatusCode >= http.StatusMultipleChoices`. -/
def isFailureStatus (code : Nat) : Bool :=
  code < 200 || 300 ≤ code

/-- Whether `client.Do`'s result takes the failure branch. -/
def failingResult : DoResult → Bool
  | .doErr => true
  | .canceled => true
  | .status c => isFailureStatus c

/-- Failure bookkeeping of `BackendImpl.Invoke` (part_000 lines 70-71):
`b.failureCount++; b.lastFailure = time.Now()`. -/
def recordFail (st : BackendState) (now : Nat) : BackendState :=
  { st with failureCount := st.failureCount + 1, lastFailure := now }

/-- `atomic.AddInt64(&b.activeRequests, 1)` on entry to `Invoke`. -/
def loadEnter (st : BackendState) : BackendState :=
  { st with activeRequests := st.activeRequests + 1 }

/-- The deferred `atomic.AddInt64(&b.activeRequests, -1)`, run on every exit
path of `Invoke`. -/
def loadExit (st : BackendState) : BackendState :=
  { st with activeRequests := st.activeRequests - 1 }

/-- Body of `BackendImpl.Invoke` (part_000 lines 57-85) between the load
increment and the deferred decrement. -/
def backendInvokeBody (st : BackendState) (o : Outcome) (now : Nat) :
    Except GoError String × BackendState :=
  match o with
  | .createFail => (.error (.reqCreateFailed st.addr), st)
  | .dispatched .doErr => (.error (.backendFailed st.addr), recordFail st now)
  | .dispatched .canceled => (.error (.backendFailed st.addr), recordFail st now)
  | .dispatched (.status c) =>
    if isFailureStatus c then (.error (.backendStatus st.addr c), recordFail st now)
    else (.ok ("Success from " ++ st.addr), st)

/-- `BackendImpl.Invoke` (part_000 lines 52-86): load increment, body, and
the deferred load decrement that runs on success, failure, request-creation
error and cancellation alike. -/
def backendInvoke (st : BackendState) (o : Outcome) (now : Nat) :
    Except GoError String × BackendState :=
  let st1 := loadEnter st
  let r := backendInvokeBody st1 o now
  (r.1, loadExit r.2)

/-- One `atomic.AddUint32(&b.counter, 1)` followed by the uint32 `- 1` of the
round-robin selectors: returns the 32-bit index numerator and the new
counter.  The counter is kept `< 2^32`. -/
def rrNext (c : Nat) : Nat × Nat :=
  let added := (c + 1) % u32
  (((added + u32) - 1) % u32, added)

/-- `BasicBalancer.GetNextServer` (part_001 lines 30-38) over a backend list
and counter: `none` when the list is empty, otherwise the chosen index and
the updated counter.  `selector.BasicBalancer.NextServer` is the same code. -/
def basicGetNextServer (bs : List BackendState) (c : Nat) : Option Nat × Nat :=
  if bs.length = 0 then (none, c)
  else
    let p := rrNext c
    (some (p.1 % bs.length), p.2)

/-- Indices produced by `k` consecutive single-threaded calls to
`BasicBalancer.GetNextServer`. -/
def basicWindow (bs : List BackendState) (c : Nat) : Nat → List Nat
  | 0 => []
  | k + 1 =>
    match basicGetNextServer bs c with
    | (some i, c1) => i :: basicWindow bs c1 k
    | (none, _) => []

/-- `BasicBalancer.Invoke` (part_001 lines 41-48). -/
def basicInvoke (bs : List BackendState) (c : Nat) (o : Outcome) (now : Nat) :
    Except GoError String × List BackendState × Nat :=
  match basicGetNextServer bs c with
  | (none, c1) => (.error .backendServersEmpty, bs, c1)
  | (some i, c1) =>
    let r := backendInvoke (bs.getD i (newBackend "")) o now
    (r.1, bs.set i r.2, c1)


lemma u32_pos : 0 < u32 := by decide

lemma rrNext_fst {c : Nat} (h : c < u32) : (rrNext c).1 = c := by
  simp only [rrNext, u32] at h ⊢
  omega

lemma rrNext_snd (c : Nat) : (rrNext c).2 = (c + 1) % u32 := rfl

lemma basicWindow_succ (bs : List BackendState) (c k : Nat) (h : 0 < bs.length) :
    basicWindow bs c (k + 1) =
      ((rrNext c).1 % bs.length) :: basicWindow bs (rrNext c).2 k := by
  simp only [basicWindow, basicGetNextServer, if_neg (Nat.pos_iff_ne_zero.mp h)]

/-- The indices of `k` consecutive round-robin selections, starting with
counter `c < 2^32`, are `((c + j) mod 2^32) mod N` for `j < k`. -/
lemma basicWindow_eq_map (bs : List BackendState) (h : 0 < bs.length) :
    ∀ k c, c < u32 →
      basicWindow bs c k = (List.range k).map (fun j => ((c + j) % u32) % bs.length)
  | 0, c, _ => by simp [basicWindow]
  | k + 1, c, hc => by
    rw [basicWindow_succ bs c k h, rrNext_fst hc, rrNext_snd,
      basicWindow_eq_map bs h k ((c + 1) % u32) (Nat.mod_lt _ u32_pos),
      List.range_succ_eq_map]
    simp only [List.map_cons, List.map_map]
    congr 1
    · rw [Nat.add_zero, Nat.mod_eq_of_lt hc]
    · apply List.map_congr_left
      intro j _
      simp only [Function.comp_apply]
      rw [Nat.mod_add_mod]
      have hj : c + 1 + j = c + (j + 1) := by omega
      rw [hj]

lemma basicWindow_length (bs : List BackendState) (h : 0 < bs.length)
    (k c : Nat) (hc : c < u32) : (basicWindow bs c k).length = k := by
  rw [basicWindow_eq_map bs h k c hc]
  simp

lemma basicWindow_getD (bs : List BackendState) (h : 0 < bs.length)
    {k n c : Nat} (hc : c < u32) (hk : k < n) :
    (basicWindow bs c n).getD k 0 = ((c + k) % u32) % bs.length := by
  rw [basicWindow_eq_map bs h n c hc,
    List.getD_eq_getElem _ _ (by simpa using hk)]
  simp

/-- C1 counterexample: with 3 backends and the counter at `2^32 - 1`, the
next 3 consecutive single-threaded calls to `GetNextServer` return the
backends at indices `[0, 0, 1]`: backend 0 twice, backend 2 never, so the
claimed exactly-once cycle fails at the uint32 wrap. -/
theorem basic_roundRobin_cycle_cex :
    basicWindow [newBackend "a", newBackend "b", newBackend "c"] (u32 - 1) 3 = [0, 0, 1]
    ∧ (basicWindow [newBackend "a", newBackend "b", newBackend "c"] (u32 - 1) 3).count 0 = 2
    ∧ (basicWindow [newBackend "a", newBackend "b", newBackend "c"] (u32 - 1) 3).count 2 = 0 := by
  refine ⟨?_, ?_, ?_⟩ <;> decide

/-- C1 (amended): over a fixed non-empty list of `N` backends, any `N`
consecutive single-threaded calls to `GetNextServer` whose counter window
does not cross the uint32 wrap (`c + N ≤ 2^32`) return each backend exactly
once, in address-list order starting at index `c mod N` — the index after
the one the counter last produced. -/
theorem basic_roundRobin_cycle (bs : List BackendState) (c : Nat)
    (h : 0 < bs.length) (hw : c + bs.length ≤ u32) :
    (∀ k, k < bs.length →
      (basicWindow bs c bs.length).getD k 0 = (c + k) % bs.length)
    ∧ ∀ b, b < bs.length → (basicWindow bs c bs.length).count b = 1 := by
  have hc : c < u32 := by
    have := u32_pos
    omega
  constructor
  · intro k hk
    rw [basicWindow_getD bs h hc hk, Nat.mod_eq_of_lt (show c + k < u32 by omega)]
  · intro b hb
    have hmap : basicWindow bs c bs.length
        = (List.range bs.length).map (fun j => (c + j) % bs.length) := by
      rw [basicWindow_eq_map bs h bs.length c hc]
      apply List.map_congr_left
      intro j hj
      rw [List.mem_range] at hj
      rw [Nat.mod_eq_of_lt (show c + j < u32 by omega)]
    rw [hmap]
    apply List.count_eq_one_of_mem
    · apply List.Nodup.map_on _ (List.nodup_range _)
      intro x hx y hy hxy
      rw [List.mem_range] at hx hy
      have hmx : c + x ≡ c + y [MOD bs.length] := by
        unfold Nat.ModEq
        exact hxy
      have := (Nat.ModEq.add_left_cancel' c hmx)
      unfold Nat.ModEq at this
      rw [Nat.mod_eq_of_lt hx, Nat.mod_eq_of_lt hy] at this
      exact this
    · rw [List.mem_map]
      refine ⟨(b + bs.length - c % bs.length) % bs.length, ?_, ?_⟩
      · rw [List.mem_range]
        exact Nat.mod_lt _ h
      · have hcm : c % bs.length < bs.length := Nat.mod_lt _ h
        have hdm := Nat.div_add_mod c bs.length
        rw [Nat.add_mod_mod]
        have he : c + (b + bs.length - c % bs.length)
            = bs.length * (c / bs.length) + (b + bs.length) := by omega
        rw [he, Nat.mul_add_mod, Nat.add_mod_right, Nat.mod_eq_of_lt hb]

/-- C1 amended-claim witness at a concrete input: 3 backends, counter 5. -/
theorem basic_roundRobin_cycle_witness :
    (∀ k, k < 3 →
      (basicWindow [newBackend "a", newBackend "b", newBackend "c"] 5 3).getD k 0 = (5 + k) % 3)
    ∧ ∀ b, b < 3 →
      (basicWindow [newBackend "a", newBackend "b", newBackend "c"] 5 3).count b = 1 :=
  basic_roundRobin_cycle [newBackend "a", newBackend "b", newBackend "c"] 5
    (by decide) (by decide)

/-- C10: for every backend count `N` that does not divide `2^32`, the window
of `N` consecutive single-threaded `GetNextServer` calls that starts with the
counter at `2^32 - 1` (so it spans the uint32 wrap) returns the same backend
at two distinct positions and never returns backend `N - 1`: the
exactly-once-per-cycle order breaks at the wrap point. -/
theorem basic_wrap_breaks_cycle (bs : List BackendState) (h : 0 < bs.length)
    (hnd : ¬ (bs.length ∣ u32)) :
    ∃ p q, p < q ∧ q < bs.length ∧
      (basicWindow bs (u32 - 1) bs.length).getD p 0 =
        (basicWindow bs (u32 - 1) bs.length).getD q 0 ∧
      ∀ j, j < bs.length →
        (basicWindow bs (u32 - 1) bs.length).getD j 0 ≠ bs.length - 1 := by
  have hu := u32_pos
  have hc : u32 - 1 < u32 := by omega
  have hN1 : bs.length ≠ 1 := by
    intro e
    exact hnd (e ▸ Nat.one_dvd _)
  have hr : (u32 - 1) % bs.length ≠ bs.length - 1 := by
    intro hrr
    apply hnd
    apply Nat.dvd_of_mod_eq_zero
    have hd := Nat.div_add_mod (u32 - 1) bs.length
    have he : u32 = bs.length * ((u32 - 1) / bs.length + 1) := by
      rw [Nat.mul_add, Nat.mul_one]
      omega
    rw [he, Nat.mul_mod_right]
  have hwrap : ∀ j, 1 ≤ j → j ≤ u32 → (u32 - 1 + j) % u32 = j - 1 := by
    intro j h1 h2
    simp only [u32] at h2 ⊢
    omega
  rcases le_or_lt bs.length u32 with hNle | hNgt
  · have hrN : (u32 - 1) % bs.length < bs.length := Nat.mod_lt _ h
    refine ⟨0, (u32 - 1) % bs.length + 1, by omega, by omega, ?_, ?_⟩
    · rw [basicWindow_getD bs h hc (by omega), basicWindow_getD bs h hc (by omega)]
      have h0 : u32 - 1 + 0 = u32 - 1 := by omega
      have hq : (u32 - 1 + ((u32 - 1) % bs.length + 1)) % u32 = (u32 - 1) % bs.length := by
        rw [hwrap _ (by omega) (by omega)]
        omega
      rw [h0, Nat.mod_eq_of_lt hc, hq, Nat.mod_eq_of_lt hrN]
    · intro j hj
      rw [basicWindow_getD bs h hc hj]
      rcases Nat.eq_zero_or_pos j with hj0 | hj1
      · subst hj0
        have h0 : u32 - 1 + 0 = u32 - 1 := by omega
        rw [h0, Nat.mod_eq_of_lt hc]
        exact hr
      · rw [hwrap j hj1 (by omega), Nat.mod_eq_of_lt (show j - 1 < bs.length by omega)]
        omega
  · refine ⟨0, u32, by omega, by omega, ?_, ?_⟩
    · rw [basicWindow_getD bs h hc (by omega), basicWindow_getD bs h hc (by omega)]
      have h0 : u32 - 1 + 0 = u32 - 1 := by omega
      have hq : (u32 - 1 + u32) % u32 = u32 - 1 := hwrap u32 (by omega) (by omega)
      rw [h0, Nat.mod_eq_of_lt hc, hq]
    · intro j hj
      rw [basicWindow_getD bs h hc hj]
      have hv : (u32 - 1 + j) % u32 < u32 := Nat.mod_lt _ u32_pos
      rw [Nat.mod_eq_of_lt (show (u32 - 1 + j) % u32 < bs.length by omega)]
      omega

/-- C10 witness: 3 backends (3 does not divide `2^32`). -/
theorem basic_wrap_breaks_cycle_witness :
    ∃ p q, p < q ∧ q < 3 ∧
      (basicWindow [newBackend "a", newBackend "b", newBackend "c"] (u32 - 1) 3).getD p 0 =
        (basicWindow [newBackend "a", newBackend "b", newBackend "c"] (u32 - 1) 3).getD q 0 ∧
      ∀ j, j < 3 →
        (basicWindow [newBackend "a", newBackend "b", newBackend "c"] (u32 - 1) 3).getD j 0 ≠ 2 :=
  basic_wrap_breaks_cycle [newBackend "a", newBackend "b", newBackend "c"]
    (by decide) (by decide)

/-- Default used to read a list entry whose index the Go code has already
bounds-checked. -/
def defB : BackendState := newBackend ""

/-- Loop body of `IntermediateBalancer.GetNextServer` (part_000 lines
508-519): up to `fuel` attempts, each advancing the atomic counter, indexing
`counter mod n`, and testing `IsHealthy` (whose lazy-recovery side effect is
written back). -/
def intermediateSelectLoop (now : Nat) : Nat → List BackendState → Nat →
    Option Nat × List BackendState × Nat
  | 0, bs, c => (none, bs, c)
  | fuel + 1, bs, c =>
    let p := rrNext c
    let idx := p.1 % bs.length
    let q := isHealthy (bs.getD idx defB) now
    let bs1 := bs.set idx q.2
    if q.1 then (some idx, bs1, p.2)
    else intermediateSelectLoop now fuel bs1 p.2

/-- `IntermediateBalancer.GetNextServer` (part_000 lines 503-520): `none`
for an empty list, otherwise at most `n` round-robin probes skipping
unhealthy backends. -/
def intermediateGetNextServer (bs : List BackendState) (c now : Nat) :
    Option Nat × List BackendState × Nat :=
  if bs.length = 0 then (none, bs, c)
  else intermediateSelectLoop now bs.length bs c

/-- `IntermediateBalancer.Invoke` (part_000 lines 524-543): select, invoke,
and on failure mark the backend unhealthy once `failureCount` has reached
`maxFailureCount`. -/
def intermediateInvoke (bs : List BackendState) (c : Nat) (o : Outcome) (now : Nat) :
    Except GoError String × List BackendState × Nat :=
  match intermediateGetNextServer bs c now with
  | (none, bs1, c1) => (.error .backendServersEmpty, bs1, c1)
  | (some idx, bs1, c1) =>
    let r := backendInvoke (bs1.getD idx defB) o now
    match r.1 with
    | .ok v => (.ok v, bs1.set idx r.2, c1)
    | .error e =>
      let b2 := if maxFailureCount ≤ r.2.failureCount then markUnhealthy r.2 else r.2
      (.error e, bs1.set idx b2, c1)

/-- Results of a sequence of `IntermediateBalancer.GetNextServer` calls at
the given instants, threading balancer state from call to call. -/
def intermediateSelectSeq (bs : List BackendState) (c : Nat) :
    List Nat → List (Option Nat)
  | [] => []
  | t :: ts =>
    let q := intermediateGetNextServer bs c t
    q.1 :: intermediateSelectSeq q.2.1 q.2.2 ts

/-- Effect of one failed invocation on the chosen backend, as performed by
`IntermediateBalancer.Invoke`: the failure bookkeeping of
`BackendImpl.Invoke` followed by the `failureCount >= maxFailureCount`
exclusion check. -/
def intermediateRecordedFailure (st : BackendState) (r : DoResult) (now : Nat) :
    BackendState :=
  let st1 := (backendInvoke st (.dispatched r) now).2
  if maxFailureCount ≤ st1.failureCount then markUnhealthy st1 else st1

lemma intermediateRecordedFailure_eq (st : BackendState) (r : DoResult)
    (hf : failingResult r = true) (now : Nat) :
    intermediateRecordedFailure st r now =
      if maxFailureCount ≤ st.failureCount + 1 then
        markUnhealthy { st with failureCount := st.failureCount + 1, lastFailure := now }
      else { st with failureCount := st.failureCount + 1, lastFailure := now } := by
  cases r with
  | doErr =>
    simp [intermediateRecordedFailure, backendInvoke, backendInvokeBody,
      loadEnter, loadExit, recordFail, markUnhealthy]
  | canceled =>
    simp [intermediateRecordedFailure, backendInvoke, backendInvokeBody,
      loadEnter, loadExit, recordFail, markUnhealthy]
  | status code =>
    simp only [failingResult] at hf
    simp [intermediateRecordedFailure, backendInvoke, backendInvokeBody,
      loadEnter, loadExit, recordFail, markUnhealthy, hf]

lemma intermediateSelectLoop_succ (now fuel : Nat) (bs : List BackendState) (c : Nat) :
    intermediateSelectLoop now (fuel + 1) bs c =
      if (isHealthy (bs.getD ((rrNext c).1 % bs.length) defB) now).1 then
        (some ((rrNext c).1 % bs.length),
          bs.set ((rrNext c).1 % bs.length)
            (isHealthy (bs.getD ((rrNext c).1 % bs.length) defB) now).2,
          (rrNext c).2)
      else
        intermediateSelectLoop now fuel
          (bs.set ((rrNext c).1 % bs.length)
            (isHealthy (bs.getD ((rrNext c).1 % bs.length) defB) now).2)
          (rrNext c).2 := rfl

/-- A backend that is flagged unhealthy and still inside its cool-down is
neither selected nor modified by the intermediate selection loop. -/
lemma intermediateSelectLoop_avoids (now fuel : Nat) :
    ∀ (bs : List BackendState) (c j : Nat), j < bs.length →
      (bs.getD j defB).healthy = false →
      now ≤ (bs.getD j defB).lastFailure + coolDown →
      (intermediateSelectLoop now fuel bs c).1 ≠ some j
      ∧ ((intermediateSelectLoop now fuel bs c).2.1).getD j defB = bs.getD j defB
      ∧ ((intermediateSelectLoop now fuel bs c).2.1).length = bs.length := by
  induction fuel with
  | zero =>
    intro bs c j hj hh ht
    simp [intermediateSelectLoop]
  | succ fuel ih =>
    intro bs c j hj hh ht
    rw [intermediateSelectLoop_succ]
    by_cases hij : (rrNext c).1 % bs.length = j
    · rw [hij]
      have hqe : isHealthy (bs.getD j defB) now = (false, bs.getD j defB) := by
        rw [isHealthy, if_neg (by simp only [hh]; decide), if_neg (by omega)]
      rw [hqe]
      have hset_get : (bs.set j (bs.getD j defB)).getD j defB = bs.getD j defB := by
        simp [List.getD_eq_getElem?_getD, List.getElem?_set_self, hj]
      simp only [Bool.false_eq_true, if_false]
      obtain ⟨ha, hb, hc2⟩ := ih (bs.set j (bs.getD j defB)) (rrNext c).2 j
        (by simpa using hj) (by rw [hset_get]; exact hh) (by rw [hset_get]; exact ht)
      refine ⟨ha, by rw [hb, hset_get], by rw [hc2]; simp⟩
    · have hset_get : ∀ x, (bs.set ((rrNext c).1 % bs.length) x).getD j defB = bs.getD j defB := by
        intro x
        simp [List.getD_eq_getElem?_getD, List.getElem?_set_ne hij]
      by_cases hq1 : (isHealthy (bs.getD ((rrNext c).1 % bs.length) defB) now).1 = true
      · rw [if_pos hq1]
        refine ⟨by simp [hij], hset_get _, by simp⟩
      · rw [if_neg hq1]
        obtain ⟨ha, hb, hc2⟩ := ih
          (bs.set ((rrNext c).1 % bs.length)
            (isHealthy (bs.getD ((rrNext c).1 % bs.length) defB) now).2)
          (rrNext c).2 j (by simpa using hj)
          (by rw [hset_get]; exact hh) (by rw [hset_get]; exact ht)
        refine ⟨ha, by rw [hb, hset_get], by rw [hc2]; simp⟩

/-- Same avoidance for a single `IntermediateBalancer.GetNextServer` call. -/
lemma intermediateGetNextServer_avoids (bs : List BackendState) (c now j : Nat)
    (hj : j < bs.length)
    (hh : (bs.getD j defB).healthy = false)
    (ht : now ≤ (bs.getD j defB).lastFailure + coolDown) :
    (intermediateGetNextServer bs c now).1 ≠ some j
    ∧ ((intermediateGetNextServer bs c now).2.1).getD j defB = bs.getD j defB
    ∧ ((intermediateGetNextServer bs c now).2.1).length = bs.length := by
  rw [intermediateGetNextServer, if_neg (by omega)]
  exact intermediateSelectLoop_avoids now bs.length bs c j hj hh ht

/-- Same avoidance for any sequence of selection calls whose instants all
fall inside the backend's cool-down window. -/
lemma intermediateSelectSeq_avoids (times : List Nat) :
    ∀ (bs : List BackendState) (c j : Nat), j < bs.length →
      (bs.getD j defB).healthy = false →
      (∀ t ∈ times, t ≤ (bs.getD j defB).lastFailure + coolDown) →
      ∀ res ∈ intermediateSelectSeq bs c times, res ≠ some j := by
  induction times with
  | nil =>
    intro bs c j hj hh ht res hres
    simp [intermediateSelectSeq] at hres
  | cons t ts ih =>
    intro bs c j hj hh ht res hres
    rw [intermediateSelectSeq] at hres
    obtain ⟨ha, hb, hc2⟩ :=
      intermediateGetNextServer_avoids bs c t j hj hh (ht t (by simp))
    rcases List.mem_cons.mp hres with he | he
    · rw [he]
      exact ha
    · refine ih _ _ j (by omega) (by rw [hb]; exact hh) ?_ res he
      intro t2 ht2
      rw [hb]
      exact ht t2 (by simp [ht2])

/-- C2: starting from a fresh backend, three consecutive failed invocations
through `IntermediateBalancer.Invoke` (failure recording plus the
`failureCount >= maxFailureCount` check) leave it with `failureCount = 3`
and the healthy flag cleared; while at most `coolDown` has passed since the
third failure, `IsHealthy` returns false and no sequence of
`IntermediateBalancer.GetNextServer` calls ever selects it. -/
theorem intermediate_threshold_exclusion (a : String) (t1 t2 t3 : Nat)
    (r1 r2 r3 : DoResult) (h1 : failingResult r1 = true)
    (h2 : failingResult r2 = true) (h3 : failingResult r3 = true) :
    intermediateRecordedFailure
        (intermediateRecordedFailure
          (intermediateRecordedFailure (newBackend a) r1 t1) r2 t2) r3 t3
      = BackendState.mk a 3 t3 false 0
    ∧ (∀ now, now ≤ t3 + coolDown →
        (isHealthy (BackendState.mk a 3 t3 false 0) now).1 = false)
    ∧ ∀ (bs : List BackendState) (c j : Nat) (times : List Nat),
        j < bs.length →
        bs.getD j defB = BackendState.mk a 3 t3 false 0 →
        (∀ t ∈ times, t ≤ t3 + coolDown) →
        ∀ res ∈ intermediateSelectSeq bs c times, res ≠ some j := by
  refine ⟨?_, ?_, ?_⟩
  · rw [intermediateRecordedFailure_eq _ _ h1, intermediateRecordedFailure_eq _ _ h2,
      intermediateRecordedFailure_eq _ _ h3]
    simp [newBackend, maxFailureCount, markUnhealthy]
  · intro now hnow
    rw [isHealthy, if_neg (by simp), if_neg (by simp; omega)]
  · intro bs c j times hj hb ht
    refine intermediateSelectSeq_avoids times bs c j hj (by rw [hb]) ?_
    intro t htm
    rw [hb]
    exact ht t htm

/-- C2 witness at concrete inputs: one fresh backend fails three times at
instants 0, 10, 20; at instant 20 (inside the cool-down) two consecutive
selection calls both return nothing rather than that backend. -/
theorem intermediate_threshold_exclusion_witness :
    intermediateRecordedFailure
        (intermediateRecordedFailure
          (intermediateRecordedFailure (newBackend "a") .doErr 0) .doErr 10) .doErr 20
      = BackendState.mk "a" 3 20 false 0
    ∧ (∀ now, now ≤ 20 + coolDown →
        (isHealthy (BackendState.mk "a" 3 20 false 0) now).1 = false)
    ∧ ∀ (bs : List BackendState) (c j : Nat) (times : List Nat),
        j < bs.length →
        bs.getD j defB = BackendState.mk "a" 3 20 false 0 →
        (∀ t ∈ times, t ≤ 20 + coolDown) →
        ∀ res ∈ intermediateSelectSeq bs c times, res ≠ some j :=
  intermediate_threshold_exclusion "a" 0 10 20 .doErr .doErr .doErr rfl rfl rfl

/-- C3: `IsHealthy` returns true and leaves the state unchanged when the
healthy flag is set; otherwise it recovers (flag set, `failureCount` reset
to 0, returns true) exactly when strictly more than the cool-down has
elapsed since `lastFailure`; otherwise it returns false and changes
nothing. -/
theorem isHealthy_spec (st : BackendState) (now : Nat) :
    (st.healthy = true → isHealthy st now = (true, st))
    ∧ (st.healthy = false → coolDown < now - st.lastFailure →
        isHealthy st now = (true, { st with healthy := true, failureCount := 0 }))
    ∧ (st.healthy = false → ¬ coolDown < now - st.lastFailure →
        isHealthy st now = (false, st)) := by
  refine ⟨?_, ?_, ?_⟩
  · intro h
    rw [isHealthy, if_pos h]
  · intro h hcd
    rw [isHealthy, if_neg (by simp [h]), if_pos hcd]
  · intro h hcd
    rw [isHealthy, if_neg (by simp [h]), if_neg hcd]

/-- C3 witness: an unhealthy backend whose cool-down has elapsed recovers
with its failure counter reset. -/
theorem isHealthy_spec_witness :
    isHealthy (BackendState.mk "a" 2 7 false 0) (coolDown + 8) =
      (true, BackendState.mk "a" 0 7 true 0) :=
  (isHealthy_spec (BackendState.mk "a" 2 7 false 0) (coolDown + 8)).2.1 rfl
    (by decide)

/-- C6: `BackendImpl.Invoke` increments `activeRequests` by exactly one
before dispatch, the dispatch body never changes it on any outcome
(success, transport failure, bad status, request-creation error or
cancellation), and the single deferred decrement runs on every exit path,
so the post-call load equals the pre-call load and, from a non-negative
load, no stage is ever negative. -/
theorem backendInvoke_load_bracketing (st : BackendState) (o : Outcome)
    (now : Nat) (hpos : 0 ≤ st.activeRequests) :
    (loadEnter st).activeRequests = st.activeRequests + 1
    ∧ ((backendInvokeBody (loadEnter st) o now).2).activeRequests
        = (loadEnter st).activeRequests
    ∧ backendInvoke st o now
        = ((backendInvokeBody (loadEnter st) o now).1,
            loadExit (backendInvokeBody (loadEnter st) o now).2)
    ∧ ((backendInvoke st o now).2).activeRequests = st.activeRequests
    ∧ 0 ≤ (loadEnter st).activeRequests
    ∧ 0 ≤ ((backendInvoke st o now).2).activeRequests := by
  have hbody : ((backendInvokeBody (loadEnter st) o now).2).activeRequests
      = (loadEnter st).activeRequests := by
    rcases o with _ | r
    · rfl
    · rcases r with _ | _ | code
      · rfl
      · rfl
      · rw [backendInvokeBody]
        by_cases hc : isFailureStatus code = true
        · rw [if_pos hc]
          rfl
        · rw [if_neg hc]
  refine ⟨rfl, hbody, rfl, ?_, ?_, ?_⟩
  · show ((backendInvokeBody (loadEnter st) o now).2).activeRequests - 1
      = st.activeRequests
    rw [hbody]
    show st.activeRequests + 1 - 1 = st.activeRequests
    omega
  · show 0 ≤ st.activeRequests + 1
    omega
  · show 0 ≤ ((backendInvokeBody (loadEnter st) o now).2).activeRequests - 1
    rw [hbody]
    show 0 ≤ st.activeRequests + 1 - 1
    omega

/-- C6 witness: a cancelled invocation on a fresh backend still releases the
load, leaving `activeRequests` at 0. -/
theorem backendInvoke_load_bracketing_witness :
    (loadEnter (newBackend "a")).activeRequests = (newBackend "a").activeRequests + 1
    ∧ ((backendInvokeBody (loadEnter (newBackend "a")) (.dispatched .canceled) 5).2).activeRequests
        = (loadEnter (newBackend "a")).activeRequests
    ∧ backendInvoke (newBackend "a") (.dispatched .canceled) 5
        = ((backendInvokeBody (loadEnter (newBackend "a")) (.dispatched .canceled) 5).1,
            loadExit (backendInvokeBody (loadEnter (newBackend "a")) (.dispatched .canceled) 5).2)
    ∧ ((backendInvoke (newBackend "a") (.dispatched .canceled) 5).2).activeRequests
        = (newBackend "a").activeRequests
    ∧ 0 ≤ (loadEnter (newBackend "a")).activeRequests
    ∧ 0 ≤ ((backendInvoke (newBackend "a") (.dispatched .canceled) 5).2).activeRequests :=
  backendInvoke_load_bracketing (newBackend "a") (.dispatched .canceled) 5 (by decide)

/-- C4 is false of the code: a successful invocation leaves
`consecutiveFailures` untouched (here at 2), both at the backend level and
after `IntermediateBalancer.Invoke` records the outcome; no code path resets
it to 0 on success. -/
theorem success_keeps_failureCount :
    (backendInvoke (BackendState.mk "a" 2 0 true 0) (.dispatched (.status 200)) 9).1
        = .ok "Success from a"
    ∧ ((backendInvoke (BackendState.mk "a" 2 0 true 0) (.dispatched (.status 200)) 9).2).failureCount
        = 2
    ∧ (intermediateInvoke [BackendState.mk "a" 2 0 true 0] 0 (.dispatched (.status 200)) 9).1
        = .ok "Success from a"
    ∧ (((intermediateInvoke [BackendState.mk "a" 2 0 true 0] 0
          (.dispatched (.status 200)) 9).2.1).getD 0 defB).failureCount = 2 :=
  ⟨rfl, rfl, rfl, rfl⟩

/-- Read of a heap-resident backend pointer: heap entries are indices into
the balancer's backend list. -/
def bget (bs : List BackendState) (i : Nat) : BackendState :=
  bs.getD i defB

/-- Go's `<` on strings: lexicographic comparison of the character
sequences (bytewise in Go; codepoint-wise on Lean's `String.data`, which
coincides for the ASCII addresses at hand). -/
def charListLt : List Char → List Char → Bool
  | [], [] => false
  | [], _ :: _ => true
  | _ :: _, [] => false
  | c :: cs, d :: ds =>
    if c.toNat < d.toNat then true
    else if d.toNat < c.toNat then false
    else charListLt cs ds

/-- Go string comparison `a < b`. -/
def goStringLt (a b : String) : Bool :=
  charListLt a.data b.data

/-- `backendHeap.Less` (part_000 lines 145-153):
`h[i].GetLoad() < h[j].GetLoad() || (h[i].GetLoad() == h[j].GetLoad() && h[i].addr < h[j].addr)`. -/
def bLess (bs : List BackendState) (x y : Nat) : Bool :=
  decide (getLoad (bget bs x) < getLoad (bget bs y))
  || (decide (getLoad (bget bs x) = getLoad (bget bs y))
      && goStringLt (bget bs x).addr (bget bs y).addr)

/-- `backendHeap.Swap` as used by `container/heap`. -/
def listSwap (a : List Nat) (i j : Nat) : List Nat :=
  let x := a.getD i 0
  let y := a.getD j 0
  (a.set i y).set j x

/-- `container/heap`'s `down(h, i0, n)`, sift-down over the first `n`
entries; `fuel` bounds the loop (the cursor strictly increases, so `n` fuel
is always enough). -/
def heapDown (less : Nat → Nat → Bool) : Nat → List Nat → Nat → Nat → List Nat
  | 0, a, _, _ => a
  | fuel + 1, a, i, n =>
    let j1 := 2 * i + 1
    if n ≤ j1 then a
    else
      let j := if j1 + 1 < n && less (a.getD (j1 + 1) 0) (a.getD j1 0) then j1 + 1 else j1
      if less (a.getD j 0) (a.getD i 0) then heapDown less fuel (listSwap a i j) j n
      else a

/-- `container/heap`'s `up(h, j)`; `fuel` bounds the loop (the cursor
strictly decreases). -/
def heapUp (less : Nat → Nat → Bool) : Nat → List Nat → Nat → List Nat
  | 0, a, _ => a
  | fuel + 1, a, j =>
    let i := (j - 1) / 2
    if i = j || !(less (a.getD j 0) (a.getD i 0)) then a
    else heapUp less fuel (listSwap a i j) i

/-- `heap.Push`: append then sift up from the last position. -/
def goHeapPush (less : Nat → Nat → Bool) (a : List Nat) (x : Nat) : List Nat :=
  heapUp less (a.length + 1) (a ++ [x]) a.length

/-- `heap.Pop`: swap root with the last entry, sift the new root down over
the first `n` entries, then remove and return the last entry (the old
root).  On an empty heap the Go code would panic; every caller guards
`Len() > 0`, so the model returns `none` there. -/
def goHeapPop (less : Nat → Nat → Bool) (a : List Nat) : Option Nat × List Nat :=
  match a with
  | [] => (none, [])
  | _ :: _ =>
    let n := a.length - 1
    let a1 := listSwap a 0 n
    let a2 := heapDown less n a1 0 n
    (some (a2.getD n 0), a2.take n)

/-- Refill step of `AdvancedBalancer.GetNextServer` (part_000 lines
259-265): when the heap is empty, push every backend whose `IsHealthy`
check (with its lazy-recovery side effect) passes. -/
def advRefill (bs : List BackendState) (hp : List Nat) (now : Nat) :
    List BackendState × List Nat :=
  (List.range bs.length).foldl
    (fun acc i =>
      let q := isHealthy (bget acc.1 i) now
      let bs1 := acc.1.set i q.2
      if q.1 then (bs1, goHeapPush (bLess bs1) acc.2 i) else (bs1, acc.2))
    (bs, hp)

/-- Pop loop of `AdvancedBalancer.GetNextServer` (part_000 lines 272-287):
pop the heap minimum until a healthy backend appears; unhealthy pops are
discarded. -/
def advPopLoop (now : Nat) : Nat → List BackendState → List Nat →
    Option Nat × List BackendState × List Nat
  | 0, bs, hp => (none, bs, hp)
  | fuel + 1, bs, hp =>
    if hp.length = 0 then (none, bs, hp)
    else
      match goHeapPop (bLess bs) hp with
      | (none, hp1) => (none, bs, hp1)
      | (some x, hp1) =>
        let q := isHealthy (bget bs x) now
        let bs1 := bs.set x q.2
        if q.1 then (some x, bs1, hp1) else advPopLoop now fuel bs1 hp1

/-- `AdvancedBalancer.GetNextServer` (part_000 lines 254-288). -/
def advGetNextServer (bs : List BackendState) (hp : List Nat) (now : Nat) :
    Option Nat × List BackendState × List Nat :=
  let s := if hp.length = 0 then advRefill bs hp now else (bs, hp)
  if s.2.length = 0 then (none, s.1, s.2)
  else advPopLoop now s.2.length s.1 s.2

/-- Outcome-recording phase of `AdvancedBalancer.Invoke` (part_000 lines
299-320), run under the balancer lock after the call returns: on error a
second `failureCount++`, then either `MarkUnhealthy` (at
`maxFailureCount`, no push-back) or a push-back; on success an
unconditional push-back. -/
def advRecordOutcome (bs : List BackendState) (hp : List Nat) (i : Nat)
    (r : Except GoError String) : Except GoError String × List BackendState × List Nat :=
  match r with
  | .ok v => (.ok v, bs, goHeapPush (bLess bs) hp i)
  | .error e =>
    let b1 := { bget bs i with failureCount := (bget bs i).failureCount + 1 }
    if maxFailureCount ≤ b1.failureCount then
      (.error (.advancedWrapped e), bs.set i (markUnhealthy b1), hp)
    else
      (.error (.advancedWrapped e), (bs.set i b1), goHeapPush (bLess (bs.set i b1)) hp i)

/-- `AdvancedBalancer.Invoke` (part_000 lines 292-321): select, dispatch,
record. -/
def advInvoke (bs : List BackendState) (hp : List Nat) (o : Outcome) (now : Nat) :
    Except GoError String × List BackendState × List Nat :=
  match advGetNextServer bs hp now with
  | (none, bs1, hp1) => (.error .backendServersEmpty, bs1, hp1)
  | (some i, bs1, hp1) =>
    let r := backendInvoke (bget bs1 i) o now
    advRecordOutcome (bs1.set i r.2) hp1 i r.1

/-- One tick of `AdvancedBalancer.healthChecker` (part_000 lines 219-243):
for each backend, two `IsHealthy` calls (the code tests `!IsHealthy()` and
then `IsHealthy()` again, each with lazy-recovery side effects), then a
heap-membership check before pushing. -/
def healthCheckerTick (bs : List BackendState) (hp : List Nat) (now : Nat) :
    List BackendState × List Nat :=
  (List.range bs.length).foldl
    (fun acc i =>
      let q1 := isHealthy (bget acc.1 i) now
      let bs1 := acc.1.set i q1.2
      if !q1.1 then (bs1, acc.2)
      else
        let q2 := isHealthy (bget bs1 i) now
        let bs2 := bs1.set i q2.2
        if q2.1 then
          if acc.2.contains i then (bs2, acc.2)
          else (bs2, goHeapPush (bLess bs2) acc.2 i)
        else (bs2, acc.2))
    (bs, hp)

lemma listSwap_length (a : List Nat) (i j : Nat) :
    (listSwap a i j).length = a.length := by
  simp [listSwap]

lemma listSwap_getD_other (a : List Nat) (i j k : Nat) (h1 : i ≠ k) (h2 : j ≠ k) :
    (listSwap a i j).getD k 0 = a.getD k 0 := by
  simp [listSwap, List.getD_eq_getElem?_getD, List.getElem?_set_ne h2,
    List.getElem?_set_ne h1]

lemma listSwap_getD_right (a : List Nat) (i j : Nat) (hj : j < a.length) :
    (listSwap a i j).getD j 0 = a.getD i 0 := by
  simp [listSwap, List.getD_eq_getElem?_getD, List.getElem?_set_self, hj]

lemma heapDown_length (less : Nat → Nat → Bool) :
    ∀ (fuel : Nat) (a : List Nat) (i n : Nat),
      (heapDown less fuel a i n).length = a.length := by
  intro fuel
  induction fuel with
  | zero =>
    intro a i n
    rfl
  | succ fuel ih =>
    intro a i n
    rw [heapDown]
    by_cases h1 : n ≤ 2 * i + 1
    · rw [if_pos h1]
    · rw [if_neg h1]
      by_cases h2 : less ((a.getD (if 2 * i + 1 + 1 < n && less (a.getD (2 * i + 1 + 1) 0) (a.getD (2 * i + 1) 0) then 2 * i + 1 + 1 else 2 * i + 1) 0)) (a.getD i 0) = true
      · rw [if_pos h2, ih, listSwap_length]
      · rw [if_neg h2]

lemma heapDown_getD_ge (less : Nat → Nat → Bool) :
    ∀ (fuel : Nat) (a : List Nat) (i n k : Nat), n ≤ k → i < n →
      (heapDown less fuel a i n).getD k 0 = a.getD k 0 := by
  intro fuel
  induction fuel with
  | zero =>
    intro a i n k hk hi
    rfl
  | succ fuel ih =>
    intro a i n k hk hi
    rw [heapDown]
    by_cases h1 : n ≤ 2 * i + 1
    · rw [if_pos h1]
    · rw [if_neg h1]
      by_cases h2 : less ((a.getD (if 2 * i + 1 + 1 < n && less (a.getD (2 * i + 1 + 1) 0) (a.getD (2 * i + 1) 0) then 2 * i + 1 + 1 else 2 * i + 1) 0)) (a.getD i 0) = true
      · rw [if_pos h2]
        have hjlt : (if 2 * i + 1 + 1 < n && less (a.getD (2 * i + 1 + 1) 0) (a.getD (2 * i + 1) 0) then 2 * i + 1 + 1 else 2 * i + 1) < n := by
          by_cases h3 : (decide (2 * i + 1 + 1 < n)
              && less (a.getD (2 * i + 1 + 1) 0) (a.getD (2 * i + 1) 0)) = true
          · rw [if_pos h3]
            have := (Bool.and_eq_true _ _).mp h3
            simpa using this.1
          · rw [if_neg h3]
            omega
        rw [ih _ _ _ _ hk hjlt, listSwap_getD_other _ _ _ _ (by omega) (by omega)]
      · rw [if_neg h2]

/-- `heap.Pop` returns the current root. -/
lemma goHeapPop_fst (less : Nat → Nat → Bool) (a : List Nat) (ha : a ≠ []) :
    (goHeapPop less a).1 = some (a.getD 0 0) := by
  cases a with
  | nil => exact absurd rfl ha
  | cons x t =>
    rw [goHeapPop]
    rcases Nat.eq_zero_or_pos t.length with h0 | h0
    · have ht : t = [] := List.length_eq_zero.mp h0
      subst ht
      rfl
    · have hlen : (x :: t).length - 1 = t.length := by simp
      simp only [hlen]
      rw [heapDown_getD_ge less t.length (listSwap (x :: t) 0 t.length) 0 t.length
        t.length (le_refl _) h0]
      rw [listSwap_getD_right _ _ _ (by simp)]

/-- Go's heap invariant specialised to our index heaps: no child compares
strictly below its parent. -/
def IsMinHeap (less : Nat → Nat → Bool) (a : List Nat) : Prop :=
  ∀ j, j < a.length → 0 < j → less (a.getD j 0) (a.getD ((j - 1) / 2) 0) = false

instance (less : Nat → Nat → Bool) (a : List Nat) : Decidable (IsMinHeap less a) :=
  Nat.decidableBallLT a.length _

lemma charListLt_self : ∀ l : List Char, charListLt l l = false := by
  intro l
  induction l with
  | nil => rfl
  | cons c cs ih =>
    rw [charListLt, if_neg (by omega), if_neg (by omega)]
    exact ih

lemma charListLt_cons_false (c d : Char) (cs ds : List Char) :
    charListLt (c :: cs) (d :: ds) = false ↔
      ¬ c.toNat < d.toNat ∧ (d.toNat < c.toNat ∨ charListLt cs ds = false) := by
  rw [charListLt]
  by_cases h1 : c.toNat < d.toNat
  · rw [if_pos h1]
    simp [h1]
  · rw [if_neg h1]
    by_cases h2 : d.toNat < c.toNat
    · rw [if_pos h2]
      simp [h1, h2]
    · rw [if_neg h2]
      simp [h1, h2]

lemma charListLt_not_trans :
    ∀ (x y z : List Char), charListLt x y = false → charListLt y z = false →
      charListLt x z = false := by
  intro x
  induction x with
  | nil =>
    intro y z h1 h2
    cases y with
    | nil =>
      cases z with
      | nil => rfl
      | cons e es => exact h2
    | cons d ds => exact absurd h1 (by rw [charListLt]; simp)
  | cons c cs ih =>
    intro y z h1 h2
    cases y with
    | nil =>
      cases z with
      | nil => rfl
      | cons e es => exact absurd h2 (by rw [charListLt]; simp)
    | cons d ds =>
      cases z with
      | nil => rfl
      | cons e es =>
        obtain ⟨h1a, h1b⟩ := (charListLt_cons_false _ _ _ _).mp h1
        obtain ⟨h2a, h2b⟩ := (charListLt_cons_false _ _ _ _).mp h2
        refine (charListLt_cons_false _ _ _ _).mpr ⟨by omega, ?_⟩
        by_cases hec : e.toNat < c.toNat
        · left
          exact hec
        · right
          have hde : d.toNat = c.toNat := by omega
          have hed : e.toNat = d.toNat := by omega
          rcases h1b with hb | hb
          · omega
          rcases h2b with hc2 | hc2
          · omega
          exact ih ds es hb hc2

lemma bLess_irrefl (bs : List BackendState) (x : Nat) : bLess bs x x = false := by
  simp [bLess, goStringLt, charListLt_self]

lemma bLess_not_trans (bs : List BackendState) (x y z : Nat)
    (h1 : bLess bs x y = false) (h2 : bLess bs y z = false) :
    bLess bs x z = false := by
  simp only [bLess, goStringLt, Bool.or_eq_false_iff, Bool.and_eq_false_iff,
    decide_eq_false_iff_not] at h1 h2 ⊢
  obtain ⟨h1a, h1b⟩ := h1
  obtain ⟨h2a, h2b⟩ := h2
  have hxy : getLoad (bget bs y) ≤ getLoad (bget bs x) := not_lt.mp h1a
  have hyz : getLoad (bget bs z) ≤ getLoad (bget bs y) := not_lt.mp h2a
  constructor
  · intro hlt
    omega
  · by_cases heq : getLoad (bget bs x) = getLoad (bget bs z)
    · right
      have hxy_eq : getLoad (bget bs x) = getLoad (bget bs y) := by omega
      have hyz_eq : getLoad (bget bs y) = getLoad (bget bs z) := by omega
      rcases h1b with hb | hb
      · exact absurd hxy_eq hb
      rcases h2b with hc | hc
      · exact absurd hyz_eq hc
      exact charListLt_not_trans _ _ _ hb hc
    · left
      exact heq

/-- In a valid min-heap, the root is minimal: no entry compares strictly
below it. -/
lemma isMinHeap_root (bs : List BackendState) (a : List Nat)
    (hh : IsMinHeap (bLess bs) a) :
    ∀ j, j < a.length → bLess bs (a.getD j 0) (a.getD 0 0) = false := by
  intro j
  induction j using Nat.strong_induction_on with
  | _ j ih =>
    intro hj
    rcases Nat.eq_zero_or_pos j with h0 | h0
    · subst h0
      exact bLess_irrefl bs _
    · have hp := hh j hj h0
      have hplt : (j - 1) / 2 < j := by omega
      exact bLess_not_trans bs _ _ _ hp (ih _ hplt (lt_trans hplt hj))

/-- C5 counterexample: loads {A:5, B:2, C:2}, all healthy, valid heap
`[B, C, A]`.  The first `GetNextServer` call pops B and leaves the heap
`[C, A]`; the second call then returns C even though B still exists, is
healthy, and is strictly smaller in `(activeLoad, address)` order — so
"returns a minimum among all healthy backends whenever one exists" is false
of the code. -/
theorem adv_min_selection_cex :
    advGetNextServer
        [BackendState.mk "A" 0 0 true 5, BackendState.mk "B" 0 0 true 2,
          BackendState.mk "C" 0 0 true 2] [1, 2, 0] 0
      = (some 1,
          [BackendState.mk "A" 0 0 true 5, BackendState.mk "B" 0 0 true 2,
            BackendState.mk "C" 0 0 true 2], [2, 0])
    ∧ (advGetNextServer
        [BackendState.mk "A" 0 0 true 5, BackendState.mk "B" 0 0 true 2,
          BackendState.mk "C" 0 0 true 2] [2, 0] 0).1 = some 2
    ∧ (bget [BackendState.mk "A" 0 0 true 5, BackendState.mk "B" 0 0 true 2,
          BackendState.mk "C" 0 0 true 2] 1).healthy = true
    ∧ bLess [BackendState.mk "A" 0 0 true 5, BackendState.mk "B" 0 0 true 2,
          BackendState.mk "C" 0 0 true 2] 1 2 = true := by
  refine ⟨?_, ?_, ?_, ?_⟩ <;> decide

/-- C5 (amended): whenever the pool (heap) is non-empty, satisfies the heap
invariant for the current loads, and every pool-resident backend is
healthy-flagged, `AdvancedBalancer.GetNextServer` returns the pool root,
which is minimal in `(activeLoad, address)` order among the pool-resident
backends.  (The heap may omit healthy backends — e.g. one popped by an
earlier call and not yet pushed back — so minimality over all healthy
backends, as originally claimed, fails; see the counterexample.) -/
theorem adv_min_selection (bs : List BackendState) (hp : List Nat) (now : Nat)
    (hne : hp ≠ [])
    (hheap : IsMinHeap (bLess bs) hp)
    (hhealthy : ∀ k ∈ hp, (bget bs k).healthy = true) :
    (advGetNextServer bs hp now).1 = some (hp.getD 0 0)
    ∧ ∀ k ∈ hp, bLess bs k (hp.getD 0 0) = false := by
  have hlen : ¬ hp.length = 0 := fun h => hne (List.length_eq_zero.mp h)
  constructor
  · rw [advGetNextServer]
    simp only [if_neg hlen]
    cases hp with
    | nil => exact absurd rfl hne
    | cons x t =>
      rw [List.length_cons, advPopLoop]
      rw [if_neg (by simp)]
      have hfst := goHeapPop_fst (bLess bs) (x :: t) (by simp)
      rcases hq : goHeapPop (bLess bs) (x :: t) with ⟨p1, p2⟩
      rw [hq] at hfst
      simp only at hfst
      subst hfst
      have hqh : isHealthy (bget bs x) now = (true, bget bs x) := by
        rw [isHealthy, if_pos (hhealthy x (by simp))]
      simp [hqh]
  · intro k hk
    obtain ⟨j, hj, hjk⟩ := List.mem_iff_getElem.mp hk
    have hmin := isMinHeap_root bs hp hheap j hj
    rw [List.getD_eq_getElem hp 0 hj, hjk] at hmin
    exact hmin

/-- C5 amended-claim witness: loads {A:5, B:2, C:2}, valid heap `[B, C, A]`;
selection returns B (index 1), which is minimal among the pool. -/
theorem adv_min_selection_witness :
    (advGetNextServer
        [BackendState.mk "A" 0 0 true 5, BackendState.mk "B" 0 0 true 2,
          BackendState.mk "C" 0 0 true 2] [1, 2, 0] 0).1 = some 1
    ∧ ∀ k ∈ [1, 2, 0],
        bLess [BackendState.mk "A" 0 0 true 5, BackendState.mk "B" 0 0 true 2,
          BackendState.mk "C" 0 0 true 2] k 1 = false :=
  adv_min_selection
    [BackendState.mk "A" 0 0 true 5, BackendState.mk "B" 0 0 true 2,
      BackendState.mk "C" 0 0 true 2] [1, 2, 0] 0
    (by decide) (by decide) (by decide)

/-- C7: the documented lock granularity of `AdvancedBalancer.Invoke`
(selection under the pool lock, the network call outside it, outcome
recording under the lock again) lets a `healthChecker` tick run between
selection and push-back.  Starting from one healthy backend resident once
in the heap: selection pops it; the tick re-admits it (its membership check
sees it absent); the push-back then inserts it again — the heap ends as
`[0, 0]`, holding the same handle twice. -/
theorem adv_pool_duplicates_handle :
    (advGetNextServer [newBackend "a"] [0] 0).1 = some 0
    ∧ (advGetNextServer [newBackend "a"] [0] 0).2 = ([newBackend "a"], [])
    ∧ healthCheckerTick [newBackend "a"] [] healthCheckerTime
        = ([newBackend "a"], [0])
    ∧ (advRecordOutcome
        ([newBackend "a"].set 0
          (backendInvoke (bget [newBackend "a"] 0)
            (.dispatched (.status 200)) healthCheckerTime).2)
        [0] 0
        (backendInvoke (bget [newBackend "a"] 0)
          (.dispatched (.status 200)) healthCheckerTime).1).2.2 = [0, 0]
    ∧ ((advRecordOutcome
        ([newBackend "a"].set 0
          (backendInvoke (bget [newBackend "a"] 0)
            (.dispatched (.status 200)) healthCheckerTime).2)
        [0] 0
        (backendInvoke (bget [newBackend "a"] 0)
          (.dispatched (.status 200)) healthCheckerTime).1).2.2).count 0 = 2 := by
  refine ⟨?_, ?_, ?_, ?_, ?_⟩ <;> decide

/-- Evaluation of a failed `AdvancedBalancer.Invoke` on a single healthy
backend resident in the heap: the backend ends with `failureCount + 2`
(one increment inside `BackendImpl.Invoke`, one in
`AdvancedBalancer.Invoke`), is excluded exactly when that total reaches
`maxFailureCount`, and is pushed back otherwise. -/
lemma advInvoke_single_fail (st : BackendState) (r : DoResult) (now : Nat)
    (hh : st.healthy = true) (hf : failingResult r = true) :
    (advInvoke [st] [0] (.dispatched r) now).2.1
      = [if maxFailureCount ≤ st.failureCount + 2 then
           BackendState.mk st.addr (st.failureCount + 2) now false st.activeRequests
         else BackendState.mk st.addr (st.failureCount + 2) now st.healthy st.activeRequests]
    ∧ (advInvoke [st] [0] (.dispatched r) now).2.2
      = if maxFailureCount ≤ st.failureCount + 2 then [] else [0] := by
  have hih : isHealthy st now = (true, st) := by rw [isHealthy, if_pos hh]
  by_cases hth : maxFailureCount ≤ st.failureCount + 2 <;>
    rcases r with _ | _ | code <;>
    simp_all [advInvoke, advGetNextServer, advPopLoop, goHeapPop, goHeapPush, heapUp,
      heapDown, listSwap, advRecordOutcome, bget, defB, backendInvoke, backendInvokeBody,
      recordFail, loadEnter, loadExit, failingResult, markUnhealthy, add_sub_cancel_right] <;>
    rw [show st.failureCount + 1 + 1 = st.failureCount + 2 from rfl] <;>
    split_ifs with h2 <;> simp_all

/-- C8 counterexample: an `AdvancedBalancer.Invoke` call that fails at
request construction returns an error yet increases `failureCount` by only
1 (the outer increment), so "every failed Invoke call increases
failureCount by exactly 2" is false of the code. -/
theorem adv_failed_invoke_cex :
    (advInvoke [newBackend "a"] [0] .createFail 7).1
      = .error (.advancedWrapped (.reqCreateFailed "a"))
    ∧ (((advInvoke [newBackend "a"] [0] .createFail 7).2.1).getD 0 defB).failureCount
      = (newBackend "a").failureCount + 1 :=
  ⟨rfl, rfl⟩

/-- C8 (amended): every failed Invoke whose failure comes from the
dispatched HTTP call (transport error, cancellation or out-of-range
status) increases the chosen backend's failureCount by exactly 2, and the
backend is excluded exactly when the total reaches `maxFailureCount` (3);
hence a fresh backend is still included after one such failed call and
excluded after the second, rather than the third.  (A request-construction
failure increments only once — see the counterexample.) -/
theorem adv_double_increment (st : BackendState) (r : DoResult) (now : Nat)
    (hh : st.healthy = true) (hf : failingResult r = true) :
    (((advInvoke [st] [0] (.dispatched r) now).2.1).getD 0 defB).failureCount
      = st.failureCount + 2
    ∧ (maxFailureCount ≤ st.failureCount + 2 →
        (((advInvoke [st] [0] (.dispatched r) now).2.1).getD 0 defB).healthy = false)
    ∧ (st.failureCount = 0 →
        (((advInvoke [st] [0] (.dispatched r) now).2.1).getD 0 defB).healthy = true
        ∧ (((advInvoke
              ((advInvoke [st] [0] (.dispatched r) now).2.1)
              ((advInvoke [st] [0] (.dispatched r) now).2.2)
              (.dispatched r) now).2.1).getD 0 defB).healthy = false) := by
  obtain ⟨hbs, hhp⟩ := advInvoke_single_fail st r now hh hf
  refine ⟨?_, ?_, ?_⟩
  · rw [hbs]
    by_cases h : maxFailureCount ≤ st.failureCount + 2 <;> simp [h]
  · intro h
    rw [hbs]
    simp [h]
  · intro h0
    have hth : ¬ maxFailureCount ≤ st.failureCount + 2 := by
      rw [h0, maxFailureCount]
      omega
    constructor
    · rw [hbs]
      simp [hth, hh]
    · rw [hbs, hhp]
      have hth0 : ¬ maxFailureCount ≤ 0 + 2 := by
        rw [maxFailureCount]
        omega
      simp only [h0, if_neg hth0]
      obtain ⟨hbs2, hhp2⟩ := advInvoke_single_fail
        (BackendState.mk st.addr (0 + 2) now st.healthy st.activeRequests) r now hh hf
      rw [hbs2]
      have hth2 : maxFailureCount ≤ 0 + 2 + 2 := by
        rw [maxFailureCount]
        omega
      simp [hth2]

/-- C8 witness: a fresh backend, one transport-failed call: counter goes
0 to 2, still included; a second failed call excludes it. -/
theorem adv_double_increment_witness :
    (((advInvoke [newBackend "b"] [0] (.dispatched .doErr) 5).2.1).getD 0 defB).failureCount
      = (newBackend "b").failureCount + 2
    ∧ (maxFailureCount ≤ (newBackend "b").failureCount + 2 →
        (((advInvoke [newBackend "b"] [0] (.dispatched .doErr) 5).2.1).getD 0 defB).healthy = false)
    ∧ ((newBackend "b").failureCount = 0 →
        (((advInvoke [newBackend "b"] [0] (.dispatched .doErr) 5).2.1).getD 0 defB).healthy = true
        ∧ (((advInvoke
              ((advInvoke [newBackend "b"] [0] (.dispatched .doErr) 5).2.1)
              ((advInvoke [newBackend "b"] [0] (.dispatched .doErr) 5).2.2)
              (.dispatched .doErr) 5).2.1).getD 0 defB).healthy = false) :=
  adv_double_increment (newBackend "b") .doErr 5 rfl rfl

/-- Errors produced inside `BackendImpl.Invoke` never contain
`ErrNoAvailableBackends`. -/
lemma backendInvoke_error_clean (st : BackendState) (o : Outcome) (now : Nat)
    (e : GoError) (h : (backendInvoke st o now).1 = .error e) :
    e.mentionsNoAvailableBackends = false := by
  rcases o with _ | r
  · simp [backendInvoke, backendInvokeBody] at h
    subst h
    rfl
  · rcases r with _ | _ | code
    · simp [backendInvoke, backendInvokeBody] at h
      subst h
      rfl
    · simp [backendInvoke, backendInvokeBody] at h
      subst h
      rfl
    · by_cases hc : isFailureStatus code = true
      · simp [backendInvoke, backendInvokeBody, hc] at h
        subst h
        rfl
      · simp [backendInvoke, backendInvokeBody, hc] at h

/-- C9: in all three balancers, when selection yields no backend the
`Invoke` error is exactly `ErrBackendServersEmpty` (for the basic balancer
this is the empty list; for the health-aware and load-aware balancers it
also covers the all-unhealthy case, since their selection returns nothing
then); and no `Invoke` ever returns an error containing
`ErrNoAvailableBackends`. -/
theorem invoke_error_is_backendServersEmpty :
    (∀ (bs : List BackendState) (c : Nat) (o : Outcome) (now : Nat),
        bs.length = 0 → (basicInvoke bs c o now).1 = .error .backendServersEmpty)
    ∧ (∀ (bs : List BackendState) (c now : Nat) (o : Outcome),
        (intermediateGetNextServer bs c now).1 = none →
        (intermediateInvoke bs c o now).1 = .error .backendServersEmpty)
    ∧ (∀ (bs : List BackendState) (hp : List Nat) (now : Nat) (o : Outcome),
        (advGetNextServer bs hp now).1 = none →
        (advInvoke bs hp o now).1 = .error .backendServersEmpty)
    ∧ (∀ (bs : List BackendState) (c : Nat) (o : Outcome) (now : Nat) (e : GoError),
        (basicInvoke bs c o now).1 = .error e → e.mentionsNoAvailableBackends = false)
    ∧ (∀ (bs : List BackendState) (c now : Nat) (o : Outcome) (e : GoError),
        (intermediateInvoke bs c o now).1 = .error e → e.mentionsNoAvailableBackends = false)
    ∧ (∀ (bs : List BackendState) (hp : List Nat) (o : Outcome) (now : Nat) (e : GoError),
        (advInvoke bs hp o now).1 = .error e → e.mentionsNoAvailableBackends = false) := by
  refine ⟨?_, ?_, ?_, ?_, ?_, ?_⟩
  · intro bs c o now h
    simp [basicInvoke, basicGetNextServer, h]
  · intro bs c now o h
    rcases hsel : intermediateGetNextServer bs c now with ⟨ro, bs1, c1⟩
    rw [hsel] at h
    simp only at h
    subst h
    simp [intermediateInvoke, hsel]
  · intro bs hp now o h
    rcases hsel : advGetNextServer bs hp now with ⟨ro, bs1, hp1⟩
    rw [hsel] at h
    simp only at h
    subst h
    simp [advInvoke, hsel]
  · intro bs c o now e h
    rcases hsel : basicGetNextServer bs c with ⟨ro, c1⟩
    rcases ro with _ | i
    · rw [basicInvoke, hsel] at h
      simp only at h
      injection h with h2
      subst h2
      rfl
    · rw [basicInvoke, hsel] at h
      simp only at h
      exact backendInvoke_error_clean _ _ _ _ h
  · intro bs c now o e h
    rcases hsel : intermediateGetNextServer bs c now with ⟨ro, bs1, c1⟩
    rcases ro with _ | idx
    · rw [intermediateInvoke, hsel] at h
      simp only at h
      injection h with h2
      subst h2
      rfl
    · rw [intermediateInvoke, hsel] at h
      simp only at h
      rcases hr : (backendInvoke (bs1.getD idx defB) o now).1 with e2 | v
      · rw [hr] at h
        simp only at h
        injection h with h2
        subst h2
        exact backendInvoke_error_clean _ _ _ _ hr
      · rw [hr] at h
        simp at h
  · intro bs hp o now e h
    rcases hsel : advGetNextServer bs hp now with ⟨ro, bs1, hp1⟩
    rcases ro with _ | i
    · rw [advInvoke, hsel] at h
      simp only at h
      injection h with h2
      subst h2
      rfl
    · rw [advInvoke, hsel] at h
      simp only at h
      rcases hr : (backendInvoke (bget bs1 i) o now).1 with e2 | v
      · rw [hr] at h
        rw [advRecordOutcome] at h
        split_ifs at h
        · simp only at h
          injection h with h2
          subst h2
          show e2.mentionsNoAvailableBackends = false
          exact backendInvoke_error_clean _ _ _ _ hr
        · simp only at h
          injection h with h2
          subst h2
          show e2.mentionsNoAvailableBackends = false
          exact backendInvoke_error_clean _ _ _ _ hr
      · rw [hr] at h
        rw [advRecordOutcome] at h
        simp at h

/-- C9 witness: an empty basic balancer, a one-backend intermediate
balancer whose only backend is unhealthy inside its cool-down, and a
request-creation failure on the advanced balancer. -/
theorem invoke_error_is_backendServersEmpty_witness :
    (basicInvoke [] 0 (.dispatched .doErr) 5).1 = .error .backendServersEmpty
    ∧ (intermediateInvoke [BackendState.mk "a" 3 4 false 0] 0 (.dispatched .doErr) 5).1
        = .error .backendServersEmpty
    ∧ ∀ e : GoError,
        (advInvoke [newBackend "a"] [0] .createFail 5).1 = .error e →
        e.mentionsNoAvailableBackends = false :=
  ⟨invoke_error_is_backendServersEmpty.1 [] 0 (.dispatched .doErr) 5 rfl,
   invoke_error_is_backendServersEmpty.2.1 [BackendState.mk "a" 3 4 false 0] 0 5
     (.dispatched .doErr) (by decide),
   fun e he => invoke_error_is_backendServersEmpty.2.2.2.2.2
     [newBackend "a"] [0] .createFail 5 e he⟩
